import Mathlib

set_option linter.unusedVariables false
set_option maxRecDepth 100000

/-
Verification of the A2A orchestrator sample (agent registry, conversation
memory, task router plumbing and the streaming-dispatch engine) against its
natural-language specification.  The TypeScript sources are shallowly
embedded: pure functions become Lean functions, the in-memory stores become
association lists with explicit state passing, JavaScript strings become
Lean strings, Date values become natural-number timestamps passed in by the
caller, and the asynchronous stream-multiplexing loop becomes a fueled
step function driven by an explicit arrival schedule.
-/

namespace A2A

/-! ## JavaScript string primitives used by the sources -/

/-- Model of JavaScript String.prototype.toLowerCase (ASCII-adequate). -/
def lowerStr (s : String) : String :=
  String.mk (s.data.map Char.toLower)

/-- Model of JavaScript String.prototype.includes: substring containment. -/
def strIncludes (hay needle : String) : Bool :=
  (List.range (hay.data.length + 1)).any fun i =>
    needle.data.isPrefixOf (hay.data.drop i)

/-- Helper for the regex replacement replace(/\s+/g, "-"): collapse each
maximal run of whitespace characters into a single dash.  The boolean flag
records whether the previous character was part of a whitespace run. -/
def collapseWs : Bool → List Char → List Char
  | _, [] => []
  | prevWs, c :: rest =>
    if c.isWhitespace then
      if prevWs then collapseWs true rest
      else '-' :: collapseWs true rest
    else c :: collapseWs false rest

/-- Model of agentName.toLowerCase().replace(/\s+/g, "-") from the
orchestrator sources. -/
def normalizeAgentName (agentName : String) : String :=
  String.mk (collapseWs false (agentName.data.map Char.toLower))

/-! ## Message and task data model (the parts of schema.js used here) -/

/-- Model of a message part.  The sources discriminate parts only by the
presence of a text field, so the embedding keeps a text constructor and a
single non-text constructor. -/
inductive MsgPart
  | textPart (text : String)
  | dataPart
deriving DecidableEq

/-- Discriminator for the JavaScript check (has a text field). -/
def MsgPart.hasText : MsgPart → Bool
  | .textPart _ => true
  | .dataPart => false

/-- Model of (part.text or empty string) as the sources map parts. -/
def MsgPart.textOrEmpty : MsgPart → String
  | .textPart t => t
  | .dataPart => ""

/-- Message from schema.js: a role and a list of parts. -/
structure Message where
  role : String
  parts : List MsgPart
deriving DecidableEq

/-- Task states from schema.js that the orchestrator inspects. -/
inductive TaskState
  | submitted
  | working
  | inputRequired
  | completed
  | failed
  | canceled
deriving DecidableEq

/-- Task status: a state and an optional message. -/
structure TaskStatus where
  state : TaskState
  message : Option Message
deriving DecidableEq

/-- Artifact: an optional name and a list of parts. -/
structure Artifact where
  name : Option String
  parts : List MsgPart
deriving DecidableEq

/-- Terminal task record as returned by client.getTask. -/
structure TaskRecord where
  id : String
  status : TaskStatus
  artifacts : Option (List Artifact)
deriving DecidableEq

/-- Streaming event: a status update or an artifact update, matching the
union TaskStatusUpdateEvent | TaskArtifactUpdateEvent. -/
inductive AgentEvent
  | statusUpdate (status : TaskStatus)
  | artifactUpdate (artifact : Artifact)
deriving DecidableEq

/-! ## Association-list model of a JavaScript Map -/

/-- Model of Map.prototype.get. -/
def mapGet {α : Type} (m : List (String × α)) (k : String) : Option α :=
  (m.find? fun e => e.1 == k).map (·.2)

/-- Model of Map.prototype.set: replace in place when the key is present,
append otherwise (JavaScript Maps preserve insertion order on update). -/
def mapSet {α : Type} (m : List (String × α)) (k : String) (v : α) :
    List (String × α) :=
  if m.any fun e => e.1 == k then
    m.map fun e => if e.1 == k then (k, v) else e
  else m ++ [(k, v)]

/-! ## Conversation memory (conversation_memory.ts) -/

/-- Sub-task audit record stored on a turn. -/
structure SubTaskInfo where
  agentName : String
  taskId : String
  success : Bool
deriving DecidableEq

/-- Record of an agent waiting for user input. -/
structure InputRequiredState where
  inputRequiredAgent : String
  subTaskId : String
  requestTimestamp : Nat
deriving DecidableEq

/-- One conversation turn.  Date values are modelled as Nat timestamps. -/
structure ConversationTurn where
  userMessage : Message
  agentResponse : Option Message
  timestamp : Nat
  taskId : Option String
  subTasks : Option (List SubTaskInfo)
deriving DecidableEq

/-- Conversation record.  The metadata field Record of string to unknown is
modelled as a string association list; no claim depends on its values. -/
structure Conversation where
  id : String
  startedAt : Nat
  lastUpdatedAt : Nat
  turns : List ConversationTurn
  metadata : List (String × String)
  lastState : Option InputRequiredState
deriving DecidableEq

/-- The ConversationMemory store: a Map from conversation id to record. -/
structure ConversationMemory where
  conversations : List (String × Conversation)
deriving DecidableEq

/-- Embedding of ConversationMemory.createConversation: unconditionally
stores a fresh conversation under the id and returns it. -/
def ConversationMemory.createConversation (mem : ConversationMemory)
    (id : String) (metadata : List (String × String)) (now : Nat) :
    Conversation × ConversationMemory :=
  let conversation : Conversation :=
    { id := id, startedAt := now, lastUpdatedAt := now, turns := [],
      metadata := metadata, lastState := none }
  (conversation, ⟨mapSet mem.conversations id conversation⟩)

/-- Embedding of ConversationMemory.getConversation. -/
def ConversationMemory.getConversation (mem : ConversationMemory)
    (id : String) : Option Conversation :=
  mapGet mem.conversations id

/-- Embedding of ConversationMemory.addUserMessage: appends a turn, or
throws when the conversation is unknown. -/
def ConversationMemory.addUserMessage (mem : ConversationMemory)
    (conversationId : String) (userMessage : Message) (taskId : Option String)
    (now : Nat) : Except String ConversationMemory :=
  match mapGet mem.conversations conversationId with
  | none => .error ("Conversation with ID " ++ conversationId ++ " not found")
  | some conversation =>
    let turn : ConversationTurn :=
      { userMessage := userMessage, agentResponse := none, timestamp := now,
        taskId := taskId, subTasks := none }
    .ok ⟨mapSet mem.conversations conversationId
      { conversation with
        turns := conversation.turns ++ [turn],
        lastUpdatedAt := now }⟩

/-- Embedding of ConversationMemory.addAgentResponse: sets the response of
the last turn, or throws when the conversation is unknown or has no turn. -/
def ConversationMemory.addAgentResponse (mem : ConversationMemory)
    (conversationId : String) (agentResponse : Message) (now : Nat) :
    Except String ConversationMemory :=
  match mapGet mem.conversations conversationId with
  | none =>
    .error ("Conversation with ID " ++ conversationId ++ " not found or has no turns")
  | some conversation =>
    if h : conversation.turns = [] then
      .error ("Conversation with ID " ++ conversationId ++ " not found or has no turns")
    else
      let lastTurn := conversation.turns.getLast h
      .ok ⟨mapSet mem.conversations conversationId
        { conversation with
          turns := conversation.turns.dropLast ++
            [{ lastTurn with agentResponse := some agentResponse }],
          lastUpdatedAt := now }⟩

/-- Embedding of ConversationMemory.setInputRequiredState: overwrites the
single lastState slot, or throws when the conversation is unknown. -/
def ConversationMemory.setInputRequiredState (mem : ConversationMemory)
    (conversationId : String) (agentName : String) (subTaskId : String)
    (now : Nat) : Except String ConversationMemory :=
  match mapGet mem.conversations conversationId with
  | none => .error ("Conversation with ID " ++ conversationId ++ " not found")
  | some conversation =>
    .ok ⟨mapSet mem.conversations conversationId
      { conversation with
        lastState := some { inputRequiredAgent := agentName,
                            subTaskId := subTaskId, requestTimestamp := now },
        lastUpdatedAt := now }⟩

/-- Embedding of ConversationMemory.clearInputRequiredState: silently
ignores an unknown conversation, deletes lastState when present. -/
def ConversationMemory.clearInputRequiredState (mem : ConversationMemory)
    (conversationId : String) : ConversationMemory :=
  match mapGet mem.conversations conversationId with
  | none => mem
  | some conversation =>
    match conversation.lastState with
    | none => mem
    | some _ =>
      ⟨mapSet mem.conversations conversationId
        { conversation with lastState := none }⟩

/-- Embedding of ConversationMemory.addSubTaskInfo: appends an audit record
to the last turn, or throws when the conversation is unknown or empty. -/
def ConversationMemory.addSubTaskInfo (mem : ConversationMemory)
    (conversationId : String) (agentName : String) (taskId : String)
    (success : Bool) : Except String ConversationMemory :=
  match mapGet mem.conversations conversationId with
  | none =>
    .error ("Conversation with ID " ++ conversationId ++ " not found or has no turns")
  | some conversation =>
    if h : conversation.turns = [] then
      .error ("Conversation with ID " ++ conversationId ++ " not found or has no turns")
    else
      let lastTurn := conversation.turns.getLast h
      let newSubTasks := lastTurn.subTasks.getD [] ++
        [{ agentName := agentName, taskId := taskId, success := success }]
      .ok ⟨mapSet mem.conversations conversationId
        { conversation with
          turns := conversation.turns.dropLast ++
            [{ lastTurn with subTasks := some newSubTasks }] }⟩

/-! ## Sub-task identity (orchestrator.ts, generateSubTaskId) -/

/-- Embedding of generateSubTaskId from orchestrator.ts: the template
string parentTaskId ++ "-" ++ agentName.toLowerCase().replace(/\s+/g,"-"). -/
def generateSubTaskId (parentTaskId : String) (agentName : String) : String :=
  parentTaskId ++ "-" ++ normalizeAgentName agentName

/-- Embedding of the inline sub-task id expression at the terminal-record
fetch site in index.ts (the handler recomputes the derived id rather than
reusing the id the sub-task was dispatched under). -/
def fetchSubTaskId (taskId : String) (agentName : String) : String :=
  taskId ++ "-" ++ normalizeAgentName agentName

/-! ## Task plans (task_router.ts) -/

/-- Execution order hint of a plan. -/
inductive ExecutionOrder
  | parallel
  | sequential
deriving DecidableEq

/-- The metadata object attached to a resumption plan by
TaskRouter.analyzeRequest.  The source type is a string-keyed record; only
the waitingSubTaskId and isAwaitingInputContinuation entries are ever
written or read. -/
structure PlanMetadata where
  waitingSubTaskId : Option String
  isAwaitingInputContinuation : Bool
deriving DecidableEq

/-- TaskPlan from task_router.ts.  The subTasks Map is an association
list. -/
structure TaskPlan where
  taskDescription : String
  isMultiAgentTask : Bool
  selectedAgents : List String
  subTasks : List (String × String)
  executionOrder : ExecutionOrder
  needsCoordination : Bool
  metadata : Option PlanMetadata
  continueWithAgent : Option String
  continuationContext : Option String
deriving DecidableEq

/-- The value of the optional chain taskPlan.metadata?.waitingSubTaskId. -/
def TaskPlan.waitingSubTaskId (taskPlan : TaskPlan) : Option String :=
  taskPlan.metadata.bind fun m => m.waitingSubTaskId

/-- JavaScript truthiness of taskPlan.metadata?.waitingSubTaskId, the
isResumingInputRequiredTask test in executeTaskPlan (an absent field and
the empty string are both falsy). -/
def TaskPlan.isResumingInputRequiredTask (taskPlan : TaskPlan) : Bool :=
  match taskPlan.waitingSubTaskId with
  | some s => s ≠ ""
  | none => false

/-! ## Response integration (orchestrator.ts, integrateAgentResponses) -/

/-- The filter/map/join pipeline applied to message parts throughout the
sources: keep the parts that have a text field, map each to its text, join
with a newline. -/
def textsJoined (parts : List MsgPart) : String :=
  String.intercalate "\n"
    ((parts.filter fun p => p.hasText).map fun p => p.textOrEmpty)

/-- Response-text extraction for one task record inside
integrateAgentResponses: the status-message text first, then each artifact
text whose trim is nonblank appended after a blank line. -/
def extractResponseText (result : TaskRecord) : String :=
  let base :=
    match result.status.message with
    | some m => textsJoined m.parts
    | none => ""
  (result.artifacts.getD []).foldl
    (fun responseText artifact =>
      let artifactText := textsJoined artifact.parts
      if artifactText.trim ≠ "" then responseText ++ "\n\n" ++ artifactText
      else responseText)
    base

/-- The agentResponses accumulation loop of integrateAgentResponses: null
results are skipped and only responses with nonblank trimmed text are
kept, in iteration order. -/
def collectAgentResponses (results : List (String × Option TaskRecord)) :
    List (String × String) :=
  results.foldl
    (fun acc entry =>
      match entry.2 with
      | none => acc
      | some result =>
        let responseText := extractResponseText result
        if responseText.trim ≠ "" then acc ++ [(entry.1, responseText)]
        else acc)
    []

/-- Embedding of integrateAgentResponses from orchestrator.ts.  The
external Integration Oracle call taskRouter.integrateResponses is passed
in as the integrationOracle parameter; taskId and conversationId are only
used by the source for logging. -/
def integrateAgentResponses (taskId conversationId : String)
    (taskPlan : TaskPlan) (results : List (String × Option TaskRecord))
    (integrationOracle : String → List (String × String) → TaskPlan → String) :
    String :=
  let agentResponses := collectAgentResponses results
  if agentResponses.length = 0 then
    if taskPlan.isResumingInputRequiredTask then
      "I wasn't able to process your response. Please try asking your question again from the beginning."
    else
      "I couldn't determine which specialized agents to use for this task. Please try a different request or check that agents are available."
  else if !taskPlan.isMultiAgentTask && agentResponses.length == 1 then
    (agentResponses.headD ("", "")).2
  else
    integrationOracle taskPlan.taskDescription agentResponses taskPlan

/-! ## Agent registry (agent_registry.ts) -/

/-- Reachability status of a managed agent. -/
inductive AgentStatus
  | active
  | unreachable
deriving DecidableEq

/-- ManagedAgent as stored by the registry.  The card and client handles
are external; the fields the registry logic reads are kept, with the card
represented by the derived capability list. -/
structure ManagedAgent where
  id : String
  name : String
  url : String
  capabilities : List String
  status : AgentStatus
  lastChecked : Nat
deriving DecidableEq

/-- The AgentRegistry state: the agents Map and the capability index. -/
structure AgentRegistry where
  agents : List (String × ManagedAgent)
  agentsByCapability : List (String × List String)
deriving DecidableEq

/-- Word characters of the regex class backslash-w. -/
def isWordChar (c : Char) : Bool :=
  c.isAlphanum || c == '_'

/-- Embedding of generateAgentId: the prefix agent- plus the url with every
non-word character replaced by a dash. -/
def generateAgentId (url : String) : String :=
  "agent-" ++ String.mk (url.data.map fun c => if isWordChar c then c else '-')

/-- Stop words of extractKeywords. -/
def stopWords : List String :=
  ["a", "an", "the", "and", "or", "but", "is", "are", "in", "to", "that",
   "it", "with", "as", "for", "on", "by"]

/-- Splitting on non-word characters for extractKeywords.  Each delimiter
emits a piece boundary; a delimiter run therefore yields empty pieces that
the regex split would merge, and every such empty piece is removed by the
length filter of extractKeywords, so the extracted keywords agree. -/
def splitNonWord : List Char → List Char → List String
  | [], acc => [String.mk acc.reverse]
  | c :: rest, acc =>
    if isWordChar c then splitNonWord rest (c :: acc)
    else String.mk acc.reverse :: splitNonWord rest []

/-- Embedding of extractKeywords: lower-case the text, split on non-word
characters, keep words longer than three characters that are not stop
words. -/
def extractKeywords (text : String) : List String :=
  (splitNonWord (lowerStr text).data []).filter fun word =>
    word.length > 3 && !stopWords.contains word

/-- Insertion-ordered set insertion, modelling Set.prototype.add followed
by Array.from. -/
def addUnique (acc : List String) (s : String) : List String :=
  if acc.contains s then acc else acc ++ [s]

/-- Skill entry of an agent card. -/
structure AgentSkill where
  id : String
  name : String
  tags : List String
  description : Option String
deriving DecidableEq

/-- Agent card fields read by the registry. -/
structure AgentCard where
  name : String
  description : Option String
  skills : List AgentSkill
deriving DecidableEq

/-- Embedding of extractCapabilities: skill ids, names and tags lower-cased
plus keywords of the skill descriptions and of the card description,
deduplicated in insertion order. -/
def extractCapabilities (card : AgentCard) : List String :=
  let fromSkills := card.skills.foldl
    (fun acc skill =>
      let acc := addUnique acc (lowerStr skill.id)
      let acc := addUnique acc (lowerStr skill.name)
      let acc := skill.tags.foldl (fun a t => addUnique a (lowerStr t)) acc
      match skill.description with
      | some d => (extractKeywords d).foldl (fun a kw => addUnique a (lowerStr kw)) acc
      | none => acc)
    []
  match card.description with
  | some d => (extractKeywords d).foldl (fun a kw => addUnique a (lowerStr kw)) fromSkills
  | none => fromSkills

/-- Pure core of AgentRegistry.addAgent once the remote descriptor fetch
has succeeded: derive the id, extract capabilities, store the agent as
active and index each capability. -/
def AgentRegistry.addAgent (reg : AgentRegistry) (url : String)
    (card : AgentCard) (now : Nat) : ManagedAgent × AgentRegistry :=
  let id := generateAgentId url
  let capabilities := extractCapabilities card
  let agent : ManagedAgent :=
    { id := id, name := card.name, url := url, capabilities := capabilities,
      status := .active, lastChecked := now }
  let agents := mapSet reg.agents id agent
  let index := capabilities.foldl
    (fun index capability =>
      match mapGet index capability with
      | none => mapSet index capability [id]
      | some ids =>
        mapSet index capability (if ids.contains id then ids else ids ++ [id]))
    reg.agentsByCapability
  (agent, { agents := agents, agentsByCapability := index })

/-- Union of the agent ids matched by one requested capability token:
every index entry whose capability string contains the lower-cased token
contributes its ids (agentsByCapability.forEach of the source). -/
def matchingIdsForCapability (index : List (String × List String))
    (lowerCapability : String) (acc : List String) : List String :=
  index.foldl
    (fun acc entry =>
      if strIncludes entry.1 lowerCapability then entry.2.foldl addUnique acc
      else acc)
    acc

/-- Embedding of AgentRegistry.findAgentsByCapabilities: union the ids
matching any requested token, then resolve ids and keep active agents. -/
def AgentRegistry.findAgentsByCapabilities (reg : AgentRegistry)
    (capabilities : List String) : List ManagedAgent :=
  let matchingAgentIds := capabilities.foldl
    (fun acc capability =>
      matchingIdsForCapability reg.agentsByCapability (lowerStr capability) acc)
    []
  matchingAgentIds.filterMap fun id =>
    match mapGet reg.agents id with
    | some agent => if agent.status = .active then some agent else none
    | none => none

/-- The per-agent status update performed inside checkAgentsHealth once
that probe resolves: overwrite the status and lastChecked fields of the
stored agent, leaving the capability index untouched. -/
def AgentRegistry.setAgentStatus (reg : AgentRegistry) (id : String)
    (status : AgentStatus) (now : Nat) : AgentRegistry :=
  { reg with
    agents := reg.agents.map fun e =>
      if e.1 == id then (e.1, { e.2 with status := status, lastChecked := now })
      else e }

/-! ## Dispatch (orchestrator.ts, executeTaskPlan, dispatch loop) -/

/-- One opened streaming call: the agent, the task id and session id of the
call, and the message sent. -/
structure DispatchRecord where
  agentName : String
  subTaskId : String
  sessionId : String
  message : Message
deriving DecidableEq

/-- Embedding of the per-agent dispatch loop of executeTaskPlan.  The
resolved agentsByName entries are passed as (agent name, card description)
pairs, and the external prompt oracle taskRouter.generateSubTaskPrompt is
the promptOracle parameter.  When the plan carries a truthy
waitingSubTaskId the loop takes the resumption branch for every agent of
the map: it reuses the carried id and sends the latest raw user message
unmodified; otherwise it derives a fresh id and sends a user message whose
text is the oracle-generated sub-task prompt. -/
def dispatchAgents (taskId conversationId : String) (taskPlan : TaskPlan)
    (agents : List (String × String)) (latestUserMessage : Message)
    (conversationSummary : String)
    (promptOracle : String → String → String → TaskPlan → String → String) :
    List DispatchRecord :=
  agents.map fun entry =>
    if taskPlan.isResumingInputRequiredTask then
      { agentName := entry.1,
        subTaskId := taskPlan.waitingSubTaskId.getD "",
        sessionId := conversationId,
        message := latestUserMessage }
    else
      { agentName := entry.1,
        subTaskId := generateSubTaskId taskId entry.1,
        sessionId := conversationId,
        message :=
          { role := "user",
            parts := [MsgPart.textPart (promptOracle taskPlan.taskDescription
              entry.1 entry.2 taskPlan conversationSummary)] } }

/-! ## Stream multiplexing (orchestrator.ts, executeTaskPlan, while loop) -/

/-- Per-stream multiplexer state: the full upstream event sequence of the
stream and the number of iterator.next() calls issued to it so far.  Async
generators queue their next() requests, so the k-th issued pull resolves
with the k-th upstream event (or done past the end) whether or not the
promise returned by that call is ever awaited. -/
structure StreamState where
  agentName : String
  events : List AgentEvent
  pulls : Nat
deriving DecidableEq

/-- Observable outcome of the multiplexing loop: the yielded tagged events
in order, the live set left when the run stops, the total next() calls
issued per stream (recorded when the stream leaves the live set), and the
recorded input-required agents with their stored sub-task ids. -/
structure MuxResult where
  output : List (String × AgentEvent)
  finalLive : List StreamState
  pullCounts : List (String × Nat)
  inputRequiredAgents : List (String × String)
deriving DecidableEq

/-- Fueled embedding of the while loop of executeTaskPlan.  Each round the
source creates a fresh iterator.next() promise for every live stream and
races them, so every live stream's pull count rises by one per round; all
promises except the race winner are discarded, and the events resolving
those discarded pulls are lost.  The schedule models arrival timing: its
head selects the race winner among the live streams (modulo the live
count).  The winner's adopted result is the event addressed by its newest
pull, or done past the end of its sequence.  A done winner is deleted; an
input-required status winner whose agent resolves in agentsByName is
recorded with the sub-task id rule of the source, yielded, and deleted;
every other winner is yielded and stays live.  When fuel runs out the
leftover live set is reported so that a finished run is distinguishable. -/
def raceMuxRun (taskId : String) (taskPlan : TaskPlan)
    (agentNames : List String) :
    Nat → List StreamState → List Nat → MuxResult
  | 0, live, _ =>
    { output := [], finalLive := live, pullCounts := [],
      inputRequiredAgents := [] }
  | Nat.succ fuel, live, sched =>
    match live with
    | [] =>
      { output := [], finalLive := [], pullCounts := [],
        inputRequiredAgents := [] }
    | _ :: _ =>
      let live2 := live.map fun s => { s with pulls := s.pulls + 1 }
      let w := sched.headD 0 % live2.length
      let winner := live2.getD w { agentName := "", events := [], pulls := 0 }
      match winner.events.get? (winner.pulls - 1) with
      | none =>
        let rest := raceMuxRun taskId taskPlan agentNames fuel
          (live2.eraseIdx w) sched.tail
        { rest with
          pullCounts := (winner.agentName, winner.pulls) :: rest.pullCounts }
      | some event =>
        let isInputRequired :=
          match event with
          | .statusUpdate status => status.state == TaskState.inputRequired
          | .artifactUpdate _ => false
        if isInputRequired && agentNames.contains winner.agentName then
          let subTaskId :=
            if taskPlan.isResumingInputRequiredTask &&
               winner.agentName == taskPlan.selectedAgents.headD "" then
              taskPlan.waitingSubTaskId.getD ""
            else generateSubTaskId taskId winner.agentName
          let rest := raceMuxRun taskId taskPlan agentNames fuel
            (live2.eraseIdx w) sched.tail
          { rest with
            output := (winner.agentName, event) :: rest.output,
            pullCounts := (winner.agentName, winner.pulls) :: rest.pullCounts,
            inputRequiredAgents :=
              (winner.agentName, subTaskId) :: rest.inputRequiredAgents }
        else
          let rest := raceMuxRun taskId taskPlan agentNames fuel live2
            sched.tail
          { rest with output := (winner.agentName, event) :: rest.output }

/-- All arrival schedules of a given length over winner indices 0 and 1,
enough to drive every possible race outcome of a two-stream run. -/
def binarySchedules : Nat → List (List Nat)
  | 0 => [[]]
  | Nat.succ n => (binarySchedules n).flatMap fun l => [0 :: l, 1 :: l]

/-! ## Concrete fixtures used by the evidence theorems -/

/-- A fresh (non-resuming) plan fixture. -/
def planFixture : TaskPlan :=
  { taskDescription := "find a movie", isMultiAgentTask := false,
    selectedAgents := ["A", "B"], subTasks := [("A", "find a movie")],
    executionOrder := .parallel, needsCoordination := false,
    metadata := none, continueWithAgent := none, continuationContext := none }

/-- A resumption plan fixture with one selected agent, in the shape
TaskRouter.analyzeRequest builds when a suspension is pending. -/
def resumePlanOne : TaskPlan :=
  { taskDescription := "Continuando conversa com agente que solicitou entrada",
    isMultiAgentTask := false, selectedAgents := ["Movie"],
    subTasks := [("Movie", "Continuando conversa anterior")],
    executionOrder := .parallel, needsCoordination := false,
    metadata := some { waitingSubTaskId := some "T1-movie",
                       isAwaitingInputContinuation := true },
    continueWithAgent := some "Movie", continuationContext := none }

/-- A resumption plan fixture with two selected agents, exercising the
universally quantified claim about non-resuming agents. -/
def resumePlanTwo : TaskPlan :=
  { resumePlanOne with
    isMultiAgentTask := true,
    selectedAgents := ["Movie", "Coder"],
    subTasks := [("Movie", "m"), ("Coder", "c")] }

/-- A raw user message fixture. -/
def rawMsgFixture : Message :=
  { role := "user", parts := [MsgPart.textPart "here is my answer"] }

/-- Default dispatch record used with List.getD on concrete lists. -/
def defaultRec : DispatchRecord :=
  { agentName := "", subTaskId := "", sessionId := "",
    message := { role := "", parts := [] } }

/-- Events of the two-stream fan-in scenario of the spec. -/
def evA1 : AgentEvent :=
  .statusUpdate { state := .working,
                  message := some { role := "agent", parts := [MsgPart.textPart "a1"] } }

/-- First event of stream B. -/
def evB1 : AgentEvent :=
  .statusUpdate { state := .working,
                  message := some { role := "agent", parts := [MsgPart.textPart "b1"] } }

/-- Second event of stream B. -/
def evB2 : AgentEvent :=
  .statusUpdate { state := .working,
                  message := some { role := "agent", parts := [MsgPart.textPart "b2"] } }

/-- Third event of stream B. -/
def evB3 : AgentEvent :=
  .statusUpdate { state := .working,
                  message := some { role := "agent", parts := [MsgPart.textPart "b3"] } }

/-- The two dispatched streams: A yields one event then ends, B yields
three events then ends. -/
def streamsFixture : List StreamState :=
  [{ agentName := "A", events := [evA1], pulls := 0 },
   { agentName := "B", events := [evB1, evB2, evB3], pulls := 0 }]

/-- A one-agent one-capability registry fixture with a lower-cased index,
as addAgent builds. -/
def agentFixture : ManagedAgent :=
  { id := "id1", name := "Comedy Agent", url := "http://localhost:41243",
    capabilities := ["comedy"], status := .active, lastChecked := 0 }

/-- Registry holding agentFixture indexed under the token comedy. -/
def regFixture : AgentRegistry :=
  { agents := [("id1", agentFixture)],
    agentsByCapability := [("comedy", ["id1"])] }

lemma string_append_right_cancel {p q t : String} (h : p ++ t = q ++ t) :
    p = q := by
  cases p with
  | mk pd =>
    cases q with
    | mk qd =>
      cases t with
      | mk td =>
        have hd : pd ++ td = qd ++ td := congrArg String.data h
        exact congrArg String.mk (List.append_cancel_right hd)

/-- C3.  Deterministic sub-task identity: generateSubTaskId is a pure
function (the same (parent task id, agent name) pair always yields the same
id), and for a fixed agent name two distinct parent task ids always yield
two distinct sub-task ids, because the appended suffix is identical and
list append cancels on the right. -/
theorem generateSubTaskId_deterministic_and_parent_injective
    (agentName : String) (p1 p2 : String) (hne : p1 ≠ p2) :
    generateSubTaskId p1 agentName = generateSubTaskId p1 agentName ∧
    generateSubTaskId p1 agentName ≠ generateSubTaskId p2 agentName := by
  refine ⟨rfl, ?_⟩
  intro h
  apply hne
  have h2 : p1 ++ ("-" ++ normalizeAgentName agentName)
      = p2 ++ ("-" ++ normalizeAgentName agentName) := by
    simpa [generateSubTaskId, String.append_assoc] using h
  exact string_append_right_cancel h2

/-- Witness for C3 at the concrete inputs of the spec: agent "Movie" under
parent tasks "T1" and "T2". -/
theorem generateSubTaskId_deterministic_witness :
    generateSubTaskId "T1" "Movie" = generateSubTaskId "T1" "Movie" ∧
    generateSubTaskId "T1" "Movie" ≠ generateSubTaskId "T2" "Movie" :=
  generateSubTaskId_deterministic_and_parent_injective "Movie" "T1" "T2"
    (by decide)

lemma find_mapSet_aux {α : Type} (m : List (String × α)) (k : String) (v : α)
    (hmem : (m.any fun e => e.1 == k) = true) :
    mapGet (m.map fun e => if e.1 == k then (k, v) else e) k = some v := by
  induction m with
  | nil => simp at hmem
  | cons e rest ih =>
    rw [List.any_cons] at hmem
    by_cases he : (e.1 == k) = true
    · simp [mapGet, List.find?, he]
    · have hr : (rest.any fun x => x.1 == k) = true := by
        rcases Bool.or_eq_true_iff.mp hmem with h | h
        · exact absurd h he
        · exact h
      simpa [mapGet, List.find?, he] using ih hr

lemma mapGet_append_single {α : Type} (m : List (String × α)) (k : String)
    (v : α) (hmem : (m.any fun e => e.1 == k) = false) :
    mapGet (m ++ [(k, v)]) k = some v := by
  induction m with
  | nil => simp [mapGet, List.find?]
  | cons e rest ih =>
    rw [List.any_cons, Bool.or_eq_false_iff] at hmem
    obtain ⟨he, hr⟩ := hmem
    simpa [mapGet, List.find?, he] using ih hr

lemma mapGet_mapSet_self {α : Type} (m : List (String × α)) (k : String)
    (v : α) : mapGet (mapSet m k v) k = some v := by
  unfold mapSet
  by_cases hmem : (m.any fun e => e.1 == k) = true
  · simpa [hmem] using find_mapSet_aux m k v hmem
  · have hf : (m.any fun e => e.1 == k) = false := by
      cases h : (m.any fun e => e.1 == k)
      · rfl
      · exact absurd h hmem
    simpa [hf] using mapGet_append_single m k v hf

/-- C6.  Single-slot suspension with last-write-wins: setting the
suspension twice for one existing conversation with two different
(agent, sub-task id) pairs succeeds both times and leaves exactly the
second pair retrievable in the single lastState slot afterwards. -/
theorem setInputRequiredState_last_write_wins
    (mem : ConversationMemory) (cid : String) (conv : Conversation)
    (a1 s1 a2 s2 : String) (t1 t2 : Nat)
    (hget : mem.getConversation cid = some conv)
    (hdiff : (a1, s1) ≠ (a2, s2)) :
    (do
      let m1 ← mem.setInputRequiredState cid a1 s1 t1
      let m2 ← m1.setInputRequiredState cid a2 s2 t2
      pure ((m2.getConversation cid).map Conversation.lastState)) =
    Except.ok (some (some { inputRequiredAgent := a2, subTaskId := s2,
                            requestTimestamp := t2 })) := by
  have h0 : mapGet mem.conversations cid = some conv := hget
  simp [ConversationMemory.setInputRequiredState,
    ConversationMemory.getConversation, h0, mapGet_mapSet_self,
    bind, Except.bind, Functor.map, Except.map, pure, Except.pure]

/-- Witness for C6 on a concrete one-conversation store. -/
theorem setInputRequiredState_last_write_wins_witness :
    (do
      let m1 ← (ConversationMemory.mk
        [("c1", { id := "c1", startedAt := 0, lastUpdatedAt := 0, turns := [],
                  metadata := [], lastState := none })]).setInputRequiredState
        "c1" "Movie Agent" "T1-movie-agent" 5
      let m2 ← m1.setInputRequiredState "c1" "Coder Agent" "T1-coder-agent" 6
      pure ((m2.getConversation "c1").map Conversation.lastState)) =
    Except.ok (some (some { inputRequiredAgent := "Coder Agent",
                            subTaskId := "T1-coder-agent",
                            requestTimestamp := 6 })) :=
  setInputRequiredState_last_write_wins _ "c1" _ "Movie Agent" "T1-movie-agent"
    "Coder Agent" "T1-coder-agent" 5 6 rfl (by decide)

/-- C7.  Conversation State error contract: every mutating operation on an
unknown conversation id fails with the conversation-not-found error, lookup
of an unknown id returns absence, and clearing the suspension of an unknown
conversation is a no-op returning the store unchanged. -/
theorem conversationMemory_unknown_id_contract
    (mem : ConversationMemory) (cid : String) (msg resp : Message)
    (taskId : Option String) (agentName subTaskId : String) (success : Bool)
    (now : Nat) (hnone : mem.getConversation cid = none) :
    mem.addUserMessage cid msg taskId now =
      .error ("Conversation with ID " ++ cid ++ " not found") ∧
    mem.addAgentResponse cid resp now =
      .error ("Conversation with ID " ++ cid ++ " not found or has no turns") ∧
    mem.addSubTaskInfo cid agentName subTaskId success =
      .error ("Conversation with ID " ++ cid ++ " not found or has no turns") ∧
    mem.setInputRequiredState cid agentName subTaskId now =
      .error ("Conversation with ID " ++ cid ++ " not found") ∧
    mem.getConversation cid = none ∧
    mem.clearInputRequiredState cid = mem := by
  have h0 : mapGet mem.conversations cid = none := hnone
  refine ⟨?_, ?_, ?_, ?_, hnone, ?_⟩ <;>
    simp [ConversationMemory.addUserMessage, ConversationMemory.addAgentResponse,
      ConversationMemory.addSubTaskInfo, ConversationMemory.setInputRequiredState,
      ConversationMemory.clearInputRequiredState, h0]

/-- Witness for C7 on the empty store. -/
theorem conversationMemory_unknown_id_contract_witness :
    (ConversationMemory.mk []).addUserMessage "c9"
        { role := "user", parts := [MsgPart.textPart "hi"] } none 3 =
      .error ("Conversation with ID " ++ "c9" ++ " not found") ∧
    (ConversationMemory.mk []).addAgentResponse "c9"
        { role := "agent", parts := [MsgPart.textPart "yo"] } 3 =
      .error ("Conversation with ID " ++ "c9" ++ " not found or has no turns") ∧
    (ConversationMemory.mk []).addSubTaskInfo "c9" "Movie" "T1-movie" true =
      .error ("Conversation with ID " ++ "c9" ++ " not found or has no turns") ∧
    (ConversationMemory.mk []).setInputRequiredState "c9" "Movie" "T1-movie" 3 =
      .error ("Conversation with ID " ++ "c9" ++ " not found") ∧
    (ConversationMemory.mk []).getConversation "c9" = none ∧
    (ConversationMemory.mk []).clearInputRequiredState "c9" =
      ConversationMemory.mk [] :=
  conversationMemory_unknown_id_contract (ConversationMemory.mk []) "c9"
    { role := "user", parts := [MsgPart.textPart "hi"] }
    { role := "agent", parts := [MsgPart.textPart "yo"] }
    none "Movie" "T1-movie" true 3 rfl

/-- C10.  Calling createConversation with an id that is already present
replaces the stored conversation with a fresh one having an empty turn list
and no pending suspension, so subsequent lookups no longer see the previous
turns or suspension marker. -/
theorem createConversation_overwrites_existing
    (mem : ConversationMemory) (id : String)
    (metadata : List (String × String)) (now : Nat) (old : Conversation)
    (hold : mem.getConversation id = some old) :
    ∃ fresh : Conversation,
      ((mem.createConversation id metadata now).2).getConversation id =
        some fresh ∧
      fresh.turns = [] ∧ fresh.lastState = none := by
  refine ⟨{ id := id, startedAt := now, lastUpdatedAt := now, turns := [],
            metadata := metadata, lastState := none }, ?_, rfl, rfl⟩
  simp [ConversationMemory.createConversation,
    ConversationMemory.getConversation, mapGet_mapSet_self]

/-- Witness for C10 on a store whose conversation has a turn and a pending
suspension before the overwriting create. -/
theorem createConversation_overwrites_existing_witness :
    ∃ fresh : Conversation,
      (((ConversationMemory.mk
        [("c1",
          { id := "c1",
            startedAt := 0,
            lastUpdatedAt := 1,
            turns := [
              { userMessage :=
                  { role := "user", parts := [MsgPart.textPart "old question"] },
                agentResponse := none,
                timestamp := 1,
                taskId := some "T0",
                subTasks := none }],
            metadata := [],
            lastState := some
              { inputRequiredAgent := "Movie",
                subTaskId := "T0-movie",
                requestTimestamp := 1 } })]).createConversation
        "c1" [] 7).2).getConversation "c1" = some fresh ∧
      fresh.turns = [] ∧ fresh.lastState = none :=
  createConversation_overwrites_existing _ "c1" [] 7 _ rfl

/-- C1 (code evidence).  Fan-in completeness fails in the source loop: each
round creates a fresh iterator.next() promise on every live stream, races
them, and discards every promise except the adopted winner, so the events
resolving the discarded pulls are lost.  With stream A yielding one event
then ending and stream B yielding three events then ending, the run under
the arrival order [0,1,0,0] terminates with an empty live set after
emitting only two tagged events; and under every arrival schedule of the
two-stream model the loop terminates having emitted fewer than four
events — never the four the claim requires. -/
theorem raceMux_loses_events :
    raceMuxRun "T1" planFixture ["A", "B"] 8 streamsFixture [0, 1, 0, 0] =
      { output := [("A", evA1), ("B", evB2)], finalLive := [],
        pullCounts := [("A", 3), ("B", 4)], inputRequiredAgents := [] } ∧
    ((binarySchedules 8).all fun sched =>
      (raceMuxRun "T1" planFixture ["A", "B"] 8 streamsFixture
          sched).output.length < 4 &&
      (raceMuxRun "T1" planFixture ["A", "B"] 8 streamsFixture
          sched).finalLive.isEmpty) = true :=
  ⟨by decide, by decide⟩

/-- C2 (code evidence).  The one-outstanding-pull invariant fails in the
source loop: under the arrival order that always favours stream B, stream A
receives five next() calls over the run while zero events from A are ever
adopted, so new pulls are issued against A while its earlier pulls are
still unresolved and their results discarded; the claimed discipline,
re-arming only the stream whose event was adopted, allows a stream at most
one more pull than its adopted events. -/
theorem raceMux_concurrent_pulls :
    (raceMuxRun "T1" planFixture ["A", "B"] 8 streamsFixture
        [1, 1, 1, 1]).pullCounts = [("B", 4), ("A", 5)] ∧
    ((raceMuxRun "T1" planFixture ["A", "B"] 8 streamsFixture
        [1, 1, 1, 1]).output.filter fun e => e.1 == "A").length = 0 ∧
    5 > 0 + 1 :=
  ⟨by decide, by decide, by decide⟩

/-- C4 (counterexample).  The claim fails on the code because the dispatch
loop checks only whether the plan is resuming, not whether the iterated
agent is the resuming agent: for a resuming plan selecting the two agents
Movie and Coder with carried id T1-movie, the non-resuming agent Coder is
also dispatched with the carried id and the raw user message, instead of
the freshly derived id with an oracle instruction. -/
theorem dispatchAgents_counterexample :
    ((dispatchAgents "T2" "c1" resumePlanTwo [("Movie", ""), ("Coder", "")]
        rawMsgFixture "" fun _ _ _ _ _ => "PROMPT").getD 1 defaultRec) =
      { agentName := "Coder", subTaskId := "T1-movie", sessionId := "c1",
        message := rawMsgFixture } ∧
    generateSubTaskId "T2" "Coder" = "T2-coder" ∧
    ("T1-movie" : String) ≠ "T2-coder" :=
  ⟨by decide, by decide, by decide⟩

/-- C4 (amended).  When the plan carries truthy resumption metadata, every
resolved agent of the map — not only the resuming one — is dispatched with
the carried waitingSubTaskId and the forwarded raw latest user message,
with no oracle-generated instruction; when it carries none, every agent is
dispatched with the freshly derived (parent task id, agent name) id and a
user message holding the prompt-oracle instruction for that agent. -/
theorem dispatchAgents_resumption_behavior
    (taskId conversationId : String) (taskPlan : TaskPlan)
    (agents : List (String × String)) (latestUserMessage : Message)
    (conversationSummary : String)
    (promptOracle : String → String → String → TaskPlan → String → String) :
    (taskPlan.isResumingInputRequiredTask = true →
      ∀ r ∈ dispatchAgents taskId conversationId taskPlan agents
          latestUserMessage conversationSummary promptOracle,
        r.subTaskId = taskPlan.waitingSubTaskId.getD "" ∧
        r.message = latestUserMessage) ∧
    (taskPlan.isResumingInputRequiredTask = false →
      ∀ r ∈ dispatchAgents taskId conversationId taskPlan agents
          latestUserMessage conversationSummary promptOracle,
        r.subTaskId = generateSubTaskId taskId r.agentName ∧
        ∃ entry, entry ∈ agents ∧ entry.1 = r.agentName ∧
          r.message = { role := "user", parts := [MsgPart.textPart
            (promptOracle taskPlan.taskDescription r.agentName entry.2
              taskPlan conversationSummary)] }) := by
  constructor
  · intro hres r hr
    unfold dispatchAgents at hr
    rcases List.mem_map.mp hr with ⟨entry, hmem, hfr⟩
    simp only [hres, if_true] at hfr
    subst hfr
    exact ⟨rfl, rfl⟩
  · intro hres r hr
    unfold dispatchAgents at hr
    rcases List.mem_map.mp hr with ⟨entry, hmem, hfr⟩
    simp only [hres, Bool.false_eq_true, if_false] at hfr
    subst hfr
    exact ⟨rfl, entry, hmem, rfl, rfl⟩

/-- Witness for the amended C4: dispatching the one-agent resumption plan
produces a record carrying the plan id and the raw user message. -/
theorem dispatchAgents_resumption_behavior_witness :
    ((dispatchAgents "T2" "c1" resumePlanOne [("Movie", "movie expert")]
        rawMsgFixture "sum" fun _ _ _ _ _ => "PROMPT").getD 0
      defaultRec).subTaskId = resumePlanOne.waitingSubTaskId.getD "" ∧
    ((dispatchAgents "T2" "c1" resumePlanOne [("Movie", "movie expert")]
        rawMsgFixture "sum" fun _ _ _ _ _ => "PROMPT").getD 0
      defaultRec).message = rawMsgFixture :=
  (dispatchAgents_resumption_behavior "T2" "c1" resumePlanOne
    [("Movie", "movie expert")] rawMsgFixture "sum"
    (fun _ _ _ _ _ => "PROMPT")).1 rfl _ (by decide)

/-- C5 (counterexample).  The claim fails on the code because the handler
recomputes the derived id at the terminal-record fetch site instead of
reusing the id the sub-task was dispatched under: for a resumed sub-task
the dispatch uses the carried id T1-movie while the fetch looks up
T2-movie, a different id. -/
theorem fetchSubTaskId_counterexample :
    ((dispatchAgents "T2" "c1" resumePlanOne [("Movie", "")] rawMsgFixture ""
        fun _ _ _ _ _ => "P").getD 0 defaultRec).subTaskId = "T1-movie" ∧
    fetchSubTaskId "T2" "Movie" = "T2-movie" ∧
    ("T1-movie" : String) ≠ "T2-movie" :=
  ⟨by decide, by decide, by decide⟩

/-- C5 (amended).  The terminal-record fetch always recomputes the derived
(parent task id, agent name) id; for sub-tasks dispatched fresh (the plan
carries no truthy resumption metadata) this coincides with the id the
sub-task was dispatched under, so the point lookup uses the dispatch id
exactly in the fresh case. -/
theorem fetchSubTaskId_matches_fresh_dispatch
    (taskId conversationId : String) (taskPlan : TaskPlan)
    (agents : List (String × String)) (latestUserMessage : Message)
    (conversationSummary : String)
    (promptOracle : String → String → String → TaskPlan → String → String)
    (hfresh : taskPlan.isResumingInputRequiredTask = false) :
    (∀ tid name, fetchSubTaskId tid name = generateSubTaskId tid name) ∧
    ∀ r ∈ dispatchAgents taskId conversationId taskPlan agents
        latestUserMessage conversationSummary promptOracle,
      fetchSubTaskId taskId r.agentName = r.subTaskId := by
  refine ⟨fun _ _ => rfl, ?_⟩
  intro r hr
  unfold dispatchAgents at hr
  rcases List.mem_map.mp hr with ⟨entry, hmem, hfr⟩
  simp only [hfresh, Bool.false_eq_true, if_false] at hfr
  subst hfr
  rfl

/-- Witness for the amended C5 on a fresh plan: the fetch id of the first
dispatched record equals its dispatch id. -/
theorem fetchSubTaskId_matches_fresh_dispatch_witness :
    fetchSubTaskId "T1"
      ((dispatchAgents "T1" "c1" planFixture [("A", "agent a")] rawMsgFixture
          "" fun _ _ _ _ _ => "P").getD 0 defaultRec).agentName =
    ((dispatchAgents "T1" "c1" planFixture [("A", "agent a")] rawMsgFixture
        "" fun _ _ _ _ _ => "P").getD 0 defaultRec).subTaskId :=
  (fetchSubTaskId_matches_fresh_dispatch "T1" "c1" planFixture
    [("A", "agent a")] rawMsgFixture "" (fun _ _ _ _ _ => "P") rfl).2 _
    (by decide)

/-- C9.  Zero-response integration fallback: whenever the collected
per-agent responses are empty, the result does not depend on the
Integration Oracle (it is never invoked) and is one of two distinct
literal explanations, selected by whether the plan carries truthy
resumption metadata; and the two literals are never equal. -/
theorem integrateAgentResponses_zero_fallback
    (taskId conversationId : String) (taskPlan : TaskPlan)
    (results : List (String × Option TaskRecord))
    (hempty : collectAgentResponses results = []) :
    (∀ integrationOracle,
      integrateAgentResponses taskId conversationId taskPlan results
          integrationOracle =
        if taskPlan.isResumingInputRequiredTask then
          "I wasn't able to process your response. Please try asking your question again from the beginning."
        else
          "I couldn't determine which specialized agents to use for this task. Please try a different request or check that agents are available.") ∧
    ("I wasn't able to process your response. Please try asking your question again from the beginning." : String) ≠
      "I couldn't determine which specialized agents to use for this task. Please try a different request or check that agents are available." := by
  constructor
  · intro integrationOracle
    simp [integrateAgentResponses, hempty]
  · decide

/-- Witness for C9: a results map whose only entry is a null record yields
the resumption fallback literal under a resuming plan, for an arbitrary
concrete oracle. -/
theorem integrateAgentResponses_zero_fallback_witness :
    integrateAgentResponses "T2" "c1" resumePlanOne [("Movie", none)]
        (fun _ _ _ => "ORACLE") =
      "I wasn't able to process your response. Please try asking your question again from the beginning." := by
  have h := (integrateAgentResponses_zero_fallback "T2" "c1" resumePlanOne
    [("Movie", none)] rfl).1 (fun _ _ _ => "ORACLE")
  rw [h]
  rfl

lemma mem_addUnique {acc : List String} {s x : String} :
    x ∈ addUnique acc s ↔ x ∈ acc ∨ x = s := by
  unfold addUnique
  by_cases h : acc.contains s
  · have hs : s ∈ acc := by simpa using h
    simp only [h, if_true]
    constructor
    · exact fun hx => Or.inl hx
    · rintro (hx | rfl)
      · exact hx
      · exact hs
  · rw [if_neg h]
    simp

lemma mem_foldl_addUnique (ids : List String) (acc : List String)
    (x : String) : x ∈ ids.foldl addUnique acc ↔ x ∈ acc ∨ x ∈ ids := by
  induction ids generalizing acc with
  | nil => simp
  | cons i rest ih =>
    rw [List.foldl_cons, ih, mem_addUnique, List.mem_cons]
    tauto

lemma mem_matchingIdsForCapability (index : List (String × List String))
    (lc : String) (acc : List String) (x : String) :
    x ∈ matchingIdsForCapability index lc acc ↔
      x ∈ acc ∨ ∃ e, e ∈ index ∧ strIncludes e.1 lc = true ∧ x ∈ e.2 := by
  induction index generalizing acc with
  | nil => simp [matchingIdsForCapability]
  | cons e rest ih =>
    unfold matchingIdsForCapability
    rw [List.foldl_cons]
    by_cases h : strIncludes e.1 lc = true
    · rw [if_pos h]
      rw [show rest.foldl _ (e.2.foldl addUnique acc) =
        matchingIdsForCapability rest lc (e.2.foldl addUnique acc) from rfl]
      rw [ih, mem_foldl_addUnique]
      constructor
      · rintro ((hx | hx) | ⟨f, hf, hs, hx⟩)
        · exact Or.inl hx
        · exact Or.inr ⟨e, List.mem_cons_self e rest, h, hx⟩
        · exact Or.inr ⟨f, List.mem_cons_of_mem e hf, hs, hx⟩
      · rintro (hx | ⟨f, hf, hs, hx⟩)
        · exact Or.inl (Or.inl hx)
        · rcases List.mem_cons.mp hf with rfl | hf
          · exact Or.inl (Or.inr hx)
          · exact Or.inr ⟨f, hf, hs, hx⟩
    · rw [if_neg h]
      rw [show rest.foldl _ acc = matchingIdsForCapability rest lc acc from rfl]
      rw [ih]
      constructor
      · rintro (hx | ⟨f, hf, hs, hx⟩)
        · exact Or.inl hx
        · exact Or.inr ⟨f, List.mem_cons_of_mem e hf, hs, hx⟩
      · rintro (hx | ⟨f, hf, hs, hx⟩)
        · exact Or.inl hx
        · rcases List.mem_cons.mp hf with rfl | hf
          · exact absurd hs h
          · exact Or.inr ⟨f, hf, hs, hx⟩

lemma mem_matchingAgentIds (idx : List (String × List String))
    (caps : List String) (acc : List String) (x : String) :
    x ∈ caps.foldl (fun acc capability =>
        matchingIdsForCapability idx (lowerStr capability) acc) acc ↔
      x ∈ acc ∨ ∃ cap, cap ∈ caps ∧ ∃ e, e ∈ idx ∧
        strIncludes e.1 (lowerStr cap) = true ∧ x ∈ e.2 := by
  induction caps generalizing acc with
  | nil => simp
  | cons c rest ih =>
    rw [List.foldl_cons, ih, mem_matchingIdsForCapability]
    constructor
    · rintro ((hx | ⟨e, he, hs, hx⟩) | ⟨cap, hcap, e, he, hs, hx⟩)
      · exact Or.inl hx
      · exact Or.inr ⟨c, List.mem_cons_self c rest, e, he, hs, hx⟩
      · exact Or.inr ⟨cap, List.mem_cons_of_mem c hcap, e, he, hs, hx⟩
    · rintro (hx | ⟨cap, hcap, e, he, hs, hx⟩)
      · exact Or.inl (Or.inl hx)
      · rcases List.mem_cons.mp hcap with rfl | hcap
        · exact Or.inl (Or.inr ⟨e, he, hs, hx⟩)
        · exact Or.inr ⟨cap, hcap, e, he, hs, hx⟩

/-- C8.  Capability discovery semantics: for every registry whose
capability index holds lower-cased capability strings — which is every
index the code ever builds, since extractCapabilities lower-cases each
entry — findAgentsByCapabilities returns exactly the agents that are
active and listed under some indexed capability string containing one of
the requested tokens as a case-insensitive substring; and the per-agent
status update of checkAgentsHealth never touches the capability index, so
flipping a status removes an agent from the results without removing its
index entry. -/
theorem findAgentsByCapabilities_semantics
    (reg : AgentRegistry) (tokens : List String)
    (hlower : ∀ e ∈ reg.agentsByCapability, lowerStr e.1 = e.1) :
    (∀ agent, agent ∈ reg.findAgentsByCapabilities tokens ↔
      ∃ id, mapGet reg.agents id = some agent ∧
        agent.status = AgentStatus.active ∧
        ∃ tok, tok ∈ tokens ∧ ∃ e, e ∈ reg.agentsByCapability ∧
          strIncludes (lowerStr e.1) (lowerStr tok) = true ∧ id ∈ e.2) ∧
    ∀ id status now,
      (reg.setAgentStatus id status now).agentsByCapability =
        reg.agentsByCapability := by
  constructor
  · intro agent
    unfold AgentRegistry.findAgentsByCapabilities
    rw [List.mem_filterMap]
    constructor
    · rintro ⟨id, hid, hf⟩
      rw [mem_matchingAgentIds] at hid
      rcases hid with hid | ⟨cap, hcap, e, he, hs, hxe⟩
      · simp at hid
      · cases hga : mapGet reg.agents id with
        | none => rw [hga] at hf; exact absurd hf (by simp)
        | some a =>
          rw [hga] at hf
          dsimp only at hf
          by_cases hst : a.status = AgentStatus.active
          · rw [if_pos hst] at hf
            have ha : a = agent := by injection hf
            subst ha
            refine ⟨id, hga, hst, cap, hcap, e, he, ?_, hxe⟩
            rw [hlower e he]
            exact hs
          · rw [if_neg hst] at hf
            exact absurd hf (by simp)
    · rintro ⟨id, hga, hst, tok, htok, e, he, hs, hid⟩
      refine ⟨id, ?_, ?_⟩
      · rw [mem_matchingAgentIds]
        rw [hlower e he] at hs
        exact Or.inr ⟨tok, htok, e, he, hs, hid⟩
      · rw [hga]
        dsimp only
        rw [if_pos hst]
  · intro id status now
    rfl

/-- Witness for C8: the concrete registry holding a comedy agent is
returned for the request token com while active; the status flip to
unreachable keeps the index entry and drops the agent from the results. -/
theorem findAgentsByCapabilities_semantics_witness :
    agentFixture ∈ regFixture.findAgentsByCapabilities ["com"] ∧
    (regFixture.setAgentStatus "id1" AgentStatus.unreachable
        1).agentsByCapability = regFixture.agentsByCapability ∧
    agentFixture ∉ (regFixture.setAgentStatus "id1" AgentStatus.unreachable
        1).findAgentsByCapabilities ["com"] := by
  refine ⟨?_, rfl, by decide⟩
  exact ((findAgentsByCapabilities_semantics regFixture ["com"]
    (by decide)).1 agentFixture).mpr
    ⟨"id1", by decide, rfl, "com", by decide, ("comedy", ["id1"]), by decide,
      by decide, by decide⟩

end A2A
